import Mathlib

/-!
Verification of the retrieval-and-transition orchestration tool
(`s3-glacier-restore.py`) against its natural-language specification.

Shallow embedding of the source. The storage provider (boto3/S3) is an
external collaborator: its responses are modelled explicitly as data
passed to the embedded functions.

Modelling decisions, written once here:
* There is a single bucket for a run; the constant `bucket` argument of
  every Python function is therefore left implicit in the embedding.
* Provider interactions and log statements are recorded as an explicit
  `Event` trace; payloads in debug/warning/error messages mirror the
  source f-strings up to quoting.
* A paged `list_objects_v2` response carries an optional `Contents`
  field (the source itself guards with an `if Contents in rsp` check in
  `list_objects`, because the provider omits the field when the listing
  is empty); the field is modelled as `Option (List ObjRec)`.
* `copy_object` outcomes are driven by a finite per-object response
  script (`copyScript`): each attempt consumes one scripted response,
  and an exhausted script answers success (the object's restore has
  completed by then).  A successful copy rewrites the object's storage
  class to the copy's target class.
* Python exceptions become explicit result values: `ClientError` codes
  as strings, plus the `AssertionError` / `KeyError` that the uncaught
  non-`ClientError` paths of `transit_once` can raise.
* The unbounded `while True` poll loop is given an explicit fuel
  parameter; `LoopResult.outOfFuel` marks fuel exhaustion and is a
  modelling artefact, not a behaviour of the source.
-/

/-- Retrieval tier enumeration from the source (`class Tier(Enum)`). -/
inductive Tier where
  | Expedited
  | Standard
  | Bulk
deriving DecidableEq, Repr

/-- String value of a tier, as `str(tier)` in the source. -/
def Tier.str : Tier → String
  | .Expedited => "Expedited"
  | .Standard => "Standard"
  | .Bulk => "Bulk"

/-- Target storage class enumeration from the source (`class StorageClass(Enum)`). -/
inductive StorageClass where
  | Standard
  | StandardInfrequentAccess
  | OneZoneInfrequentAccess
  | IntelligentTiering
deriving DecidableEq, Repr

/-- String value of a storage class, as `str(storage_class)` in the source. -/
def StorageClass.str : StorageClass → String
  | .Standard => "STANDARD"
  | .StandardInfrequentAccess => "STANDARD_IA"
  | .OneZoneInfrequentAccess => "ONEZONE_IA"
  | .IntelligentTiering => "INTELLIGENT_TIERING"

/-- One observable step of a run: a provider call, a sleep, or a log line. -/
inductive Event where
  | listCall (pfx : String)
  | restoreCall (key : String) (days : Nat) (tier : String)
  | copyCall (key : String) (targetCls : String)
  | headCall (key : String)
  | sleep (seconds : Nat)
  | logDebug (msg : String)
  | logWarning (msg : String)
  | logError (msg : String)
deriving DecidableEq, Repr

/-- Whether an event is a call to the storage provider (as opposed to a
log line or a sleep). -/
def Event.isProviderCall : Event → Bool
  | .listCall _ => true
  | .restoreCall _ _ _ => true
  | .copyCall _ _ => true
  | .headCall _ => true
  | _ => false

/-- An object record as it appears in a listing response: the `Key` and
`StorageClass` fields the source reads off each element of `Contents`. -/
structure ObjRec where
  key : String
  storageClass : String
deriving DecidableEq, Repr

/-- Key-prefix matching as the provider's `Prefix=` listing filter and
Python's `startswith` perform it: the first string's characters head
the second's. -/
def pfxMatch (p s : String) : Bool :=
  p.data.isPrefixOf s.data

/-- Keys collected from one page's `Contents` by the body of the paging
loop in `list_objects` (source lines 97-106): append every key, or, when
`glacier` is set, only keys whose storage class is `GLACIER`. -/
def pageKeys (glacier : Bool) : List ObjRec → List String
  | [] => []
  | o :: rest =>
    if glacier then
      if o.storageClass == "GLACIER" then o.key :: pageKeys glacier rest
      else pageKeys glacier rest
    else o.key :: pageKeys glacier rest

/-- `list_objects` (source lines 79-114).  The provider's successive
paged responses are given as `pages`; each page's `Contents` field is
optional.  The continuation-token loop consumes every page in order and
accumulates the filtered keys.  (The `print` flag of the source only
controls debug logging of each key and does not affect the result.) -/
def list_objects (glacier : Bool) : List (Option (List ObjRec)) → List String
  | [] => []
  | page :: rest =>
    (match page with
     | some contents => pageKeys glacier contents
     | none => []) ++ list_objects glacier rest

theorem pageKeys_append (glacier : Bool) (l₁ l₂ : List ObjRec) :
    pageKeys glacier (l₁ ++ l₂) = pageKeys glacier l₁ ++ pageKeys glacier l₂ := by
  induction l₁ with
  | nil => simp [pageKeys]
  | cons o rest ih =>
    simp only [List.cons_append, pageKeys]
    split
    · split
      · simp [ih]
      · simp [ih]
    · simp [ih]

theorem list_objects_eq_pageKeys_join (glacier : Bool) (pages : List (Option (List ObjRec))) :
    list_objects glacier pages = pageKeys glacier (pages.map (fun c => c.getD [])).flatten := by
  induction pages with
  | nil => simp [list_objects, pageKeys]
  | cons page rest ih =>
    simp only [list_objects, List.map_cons, List.flatten, pageKeys_append, ih]
    cases page <;> simp [pageKeys, pageKeys_append]

theorem pageKeys_eq_filter_map (glacier : Bool) (l : List ObjRec) :
    pageKeys glacier l =
      (l.filter (fun o => !glacier || o.storageClass == "GLACIER")).map (fun o => o.key) := by
  induction l with
  | nil => simp [pageKeys]
  | cons o rest ih =>
    cases glacier with
    | false => simp [pageKeys, List.filter, ih]
    | true =>
      simp only [pageKeys, ih]
      by_cases h : o.storageClass == "GLACIER" <;> simp [List.filter, h]

/-- Outcome of a single provider call that either succeeds or raises a
`ClientError` carrying an error code. -/
inductive ProviderResp where
  | ok
  | clientError (code : String)
deriving DecidableEq, Repr

/-- Body of `restore_glacier_objects` when
`continue_on_restore_already_in_progress` is true (source lines
140-151): each key's `restore_object` call is wrapped in a
try/except that tolerates `RestoreAlreadyInProgress` always and other
`ClientError`s when `continue_on_other_errors` is set.  `env` gives the
provider's response per key; the second component is `none` on normal
completion and `some code` when the run re-raises a `ClientError`. -/
def restoreLoop (env : String → ProviderResp) (days : Nat) (tier : Tier)
    (continue_on_other_errors : Bool) : List String → List Event × Option String
  | [] => ([], none)
  | k :: rest =>
    match env k with
    | .ok =>
      (Event.logDebug ("Restoring " ++ k) :: Event.restoreCall k days tier.str ::
        Event.logDebug ("Successfully sent Restore request for " ++ k) ::
        (restoreLoop env days tier continue_on_other_errors rest).1,
       (restoreLoop env days tier continue_on_other_errors rest).2)
    | .clientError c =>
      if c = "RestoreAlreadyInProgress" then
        (Event.logDebug ("Restoring " ++ k) :: Event.restoreCall k days tier.str ::
          Event.logWarning c ::
          (restoreLoop env days tier continue_on_other_errors rest).1,
         (restoreLoop env days tier continue_on_other_errors rest).2)
      else if continue_on_other_errors then
        (Event.logDebug ("Restoring " ++ k) :: Event.restoreCall k days tier.str ::
          Event.logError c ::
          Event.logWarning "Continuing because continue_on_other_errors is set to True" ::
          (restoreLoop env days tier continue_on_other_errors rest).1,
         (restoreLoop env days tier continue_on_other_errors rest).2)
      else
        ([Event.logDebug ("Restoring " ++ k), Event.restoreCall k days tier.str], some c)

/-- Body of `restore_glacier_objects` when
`continue_on_restore_already_in_progress` is false (source lines
152-154): the per-key calls run with no try/except at all, so the first
`ClientError` of any code aborts the call. -/
def restoreStrict (env : String → ProviderResp) (days : Nat) (tier : Tier) :
    List String → List Event × Option String
  | [] => ([], none)
  | k :: rest =>
    match env k with
    | .ok =>
      (Event.logDebug ("Restoring " ++ k) :: Event.restoreCall k days tier.str ::
        Event.logDebug ("Successfully sent Restore request for " ++ k) ::
        (restoreStrict env days tier rest).1,
       (restoreStrict env days tier rest).2)
    | .clientError c =>
      ([Event.logDebug ("Restoring " ++ k), Event.restoreCall k days tier.str], some c)

/-- `restore_glacier_objects` (source lines 117-154). -/
def restore_glacier_objects (env : String → ProviderResp) (keys : List String)
    (days : Nat) (tier : Tier)
    (continue_on_restore_already_in_progress : Bool := true)
    (continue_on_other_errors : Bool := true) : List Event × Option String :=
  if continue_on_restore_already_in_progress then
    restoreLoop env days tier continue_on_other_errors keys
  else
    restoreStrict env days tier keys

/-- `check_restore_status` (source lines 208-220): one `head_object`
call; `henv` gives the response's optional `Restore` metadata field.
When the field is present its value is logged at debug level; the
source has no else-branch, so an absent field produces no output. -/
def check_restore_status (henv : String → Option String) (key : String) : List Event :=
  Event.headCall key ::
    (match henv key with
     | some status => [Event.logDebug ("Restore status for " ++ key ++ ": " ++ status)]
     | none => [])

/-- Python `str.isdigit` restricted to the ASCII digits relevant here:
true iff the string is nonempty and every character is a digit. -/
def isDigitStr (s : String) : Bool :=
  !s.data.isEmpty && s.data.all Char.isDigit

/-- `int(s)` on a digit string: fold the decimal digits. -/
def strToNat (s : String) : Nat :=
  s.data.foldl (fun n c => 10 * n + (c.toNat - 48)) 0

/-- The `--days` validation of the `Restore` and `Transit` branches of
`__main__` (source lines 266 and 278): `assert args.days and
str.isdigit(args.days)`.  An absent argument (`None`) and the empty
string are falsy; otherwise `str.isdigit` decides. -/
def daysArgValid : Option String → Bool
  | none => false
  | some s => isDigitStr s

/-- The `Operation.Restore` branch of `__main__` (source lines
265-276): validate `--days` and `--tier`, then list the GLACIER objects
and issue the restore requests with the default policies.  The branch
is entered with the parsed CLI arguments; the provider's listing pages
and restore responses are passed in explicitly.  An assertion failure
returns the `.error` outcome with no events at all: in the source it
raises before any provider call is made. -/
def restoreOpRun (daysArg : Option String) (tierArg : Option Tier) (pfxArg : String)
    (pages : List (Option (List ObjRec))) (renv : String → ProviderResp) :
    List Event × Except String Unit :=
  if daysArgValid daysArg then
    let days := strToNat (daysArg.getD "")
    match tierArg with
    | none => ([], .error "--tier must be set")
    | some tier =>
      let keys := list_objects true pages
      (Event.listCall pfxArg :: (restore_glacier_objects renv keys days tier true true).1,
       match (restore_glacier_objects renv keys days tier true true).2 with
       | none => .ok ()
       | some c => .error c)
  else ([], .error "--days must be set to an integer")

/-- Provider-side state of one stored object: its key, current storage
class, and the script of responses its pending `copy_object` attempts
will receive (one response consumed per attempt; an exhausted script
answers success). -/
structure BEntry where
  key : String
  storageClass : String
  copyScript : List ProviderResp
deriving DecidableEq, Repr

/-- The `Key`/`StorageClass` record a listing response exposes for an
entry. -/
def BEntry.toRec (e : BEntry) : ObjRec :=
  ⟨e.key, e.storageClass⟩

/-- The `list_objects_v2(Bucket=bucket, Prefix=key)` response used by
`transit_once` (source lines 170-173): the `Contents` field holds every
object whose key extends the requested prefix, and is omitted entirely
(`none`) when no object matches. -/
def listResp (st : List BEntry) (pfx : String) : Option (List ObjRec) :=
  let ms := st.filter (fun e => pfxMatch pfx e.key)
  if ms.isEmpty then none else some (ms.map BEntry.toRec)

/-- Take the next scripted response; an empty script answers success. -/
def popResp : List ProviderResp → ProviderResp × List ProviderResp
  | [] => (.ok, [])
  | r :: rest => (r, rest)

/-- `copy_object` semantics over the modelled bucket: the first entry
whose key equals `k` consumes its next scripted response; a successful
copy rewrites that entry's storage class to `target`.  A key with no
entry answers with the provider's no-such-key error. -/
def copyObject : List BEntry → String → String → ProviderResp × List BEntry
  | [], _, _ => (.clientError "NoSuchKey", [])
  | e :: rest, k, target =>
    if e.key = k then
      match popResp e.copyScript with
      | (.ok, s') => (.ok, { e with storageClass := target, copyScript := s' } :: rest)
      | (.clientError c, s') => (.clientError c, { e with copyScript := s' } :: rest)
    else
      ((copyObject rest k target).1, e :: (copyObject rest k target).2)

/-- How a poll run can abort: the `assert len(rsp["Contents"]) == 1`
failing, the `rsp["Contents"]` lookup failing on a response with no
`Contents` field, or a re-raised `ClientError` code.  None of these is
caught anywhere in the source, so each ends the whole run. -/
inductive AbortKind where
  | assertFailure
  | keyError
  | raised (code : String)
deriving DecidableEq, Repr

/-- The per-key body of the `for key in keys` loop of `transit_once`
(source lines 167-197): re-list the single key; skip it when it is no
longer GLACIER; otherwise attempt the copy, marking the cycle pending
on `InvalidObjectState` and re-raising any other `ClientError`.  The
`Bool` of a successful outcome is this key's contribution to
`has_at_least_one_untransited`. -/
def transitOne (st : List BEntry) (k : String) (sc : StorageClass) :
    List Event × Except AbortKind (Bool × List BEntry) :=
  match listResp st k with
  | none => ([Event.listCall k], .error .keyError)
  | some [obj] =>
    if obj.storageClass = "GLACIER" then
      match copyObject st k sc.str with
      | (.ok, st') =>
        ([Event.listCall k, Event.logDebug ("Transiting " ++ k),
          Event.copyCall k sc.str, Event.logDebug ("Transiting " ++ k ++ " successful")],
         .ok (false, st'))
      | (.clientError c, st') =>
        if c = "InvalidObjectState" then
          ([Event.listCall k, Event.logDebug ("Transiting " ++ k),
            Event.copyCall k sc.str, Event.logWarning c],
           .ok (true, st'))
        else
          ([Event.listCall k, Event.logDebug ("Transiting " ++ k), Event.copyCall k sc.str],
           .error (.raised c))
    else
      ([Event.listCall k, Event.logDebug ("Skipping " ++ k)], .ok (false, st))
  | some _ => ([Event.listCall k], .error .assertFailure)

/-- `transit_once` (source lines 164-199): fold the per-key body over
the batch in order, or-ing the pending flags; an uncaught exception at
any key stops the iteration there. -/
def transitKeys (sc : StorageClass) : List BEntry → List String →
    List Event × Except AbortKind (Bool × List BEntry)
  | st, [] => ([], .ok (false, st))
  | st, k :: rest =>
    match transitOne st k sc with
    | (evs, .error a) => (evs, .error a)
    | (evs, .ok (p, st')) =>
      (evs ++ (transitKeys sc st' rest).1,
       match (transitKeys sc st' rest).2 with
       | .ok (p₂, stf) => .ok (p || p₂, stf)
       | .error a => .error a)

/-- How the poll loop ended. -/
inductive LoopResult where
  | done
  | aborted (k : AbortKind)
  | outOfFuel
deriving DecidableEq, Repr

/-- A whole poll run: its event trace, how many cycles executed, and
how it ended. -/
structure TransitRun where
  events : List Event
  cycles : Nat
  result : LoopResult
deriving DecidableEq, Repr

/-- The `while True` loop of `transit_glacier_objects` (source lines
201-206): run `transit_once`; break when no key was pending, otherwise
sleep `poll_seconds` and repeat.  `fuel` bounds the number of cycles of
the embedding; running out of fuel is a modelling artefact recorded as
`LoopResult.outOfFuel`. -/
def transitLoop : Nat → List BEntry → List String → StorageClass → Nat → TransitRun
  | 0, _, _, _, _ => ⟨[], 0, .outOfFuel⟩
  | fuel + 1, st, keys, sc, poll =>
    match transitKeys sc st keys with
    | (evs, .error a) => ⟨evs, 1, .aborted a⟩
    | (evs, .ok (pending, st')) =>
      if pending then
        ⟨evs ++ Event.sleep poll :: (transitLoop fuel st' keys sc poll).events,
         (transitLoop fuel st' keys sc poll).cycles + 1,
         (transitLoop fuel st' keys sc poll).result⟩
      else ⟨evs, 1, .done⟩

/-- `transit_glacier_objects` (source lines 157-206). -/
def transit_glacier_objects (fuel : Nat) (st : List BEntry) (keys : List String)
    (storage_cls : StorageClass) (poll_seconds : Nat) : TransitRun :=
  transitLoop fuel st keys storage_cls poll_seconds

/-- Total number of scripted copy responses still pending in the
bucket: the termination measure of the poll loop. -/
def scriptSum (st : List BEntry) : Nat :=
  (st.map (fun e => e.copyScript.length)).sum

/-- The `Operation.Transit` branch of `__main__` (source lines
277-295): validate `--days`, `--tier` and `--storage-class`, then list,
restore and poll.  As in `restoreOpRun`, an assertion failure produces
no events because the source raises before any provider call. -/
def transitOpRun (daysArg : Option String) (tierArg : Option Tier)
    (scArg : Option StorageClass) (pollSeconds : Nat) (pfxArg : String)
    (pages : List (Option (List ObjRec))) (renv : String → ProviderResp)
    (st : List BEntry) (fuel : Nat) : List Event × Except String Unit :=
  if daysArgValid daysArg then
    let days := strToNat (daysArg.getD "")
    match tierArg with
    | none => ([], .error "--tier must be set")
    | some tier =>
      match scArg with
      | none => ([], .error "--storage-class must be set")
      | some sc =>
        let keys := list_objects true pages
        match (restore_glacier_objects renv keys days tier true true).2 with
        | some c =>
          (Event.listCall pfxArg :: (restore_glacier_objects renv keys days tier true true).1,
           .error c)
        | none =>
          (Event.listCall pfxArg :: (restore_glacier_objects renv keys days tier true true).1 ++
             (transitLoop fuel st keys sc pollSeconds).events,
           match (transitLoop fuel st keys sc pollSeconds).result with
           | .done => .ok ()
           | .aborted .assertFailure => .error "AssertionError"
           | .aborted .keyError => .error "KeyError"
           | .aborted (.raised c) => .error c
           | .outOfFuel => .error "out of fuel")
  else ([], .error "--days must be set to an integer")

/-- No storage-class string of the transit targets is the archived tier. -/
theorem StorageClass.str_ne_glacier (sc : StorageClass) : sc.str ≠ "GLACIER" := by
  cases sc <;> decide

/-- Claim C5: for every prefix and every placement of pagination
boundaries, `list_objects` returns exactly the keys of the
prefix-filtered bucket listing, in listing order, and with
`glacier = true` exactly the sub-listing whose storage class is
GLACIER.  The hypothesis states the provider's paging contract: the
concatenation of the pages' `Contents` is the prefix-filtered bucket. -/
theorem list_objects_pagination_transparent
    (glacier : Bool) (pages : List (Option (List ObjRec)))
    (bucket : List ObjRec) (pfx : String)
    (h : (pages.map (fun c => c.getD [])).flatten
        = bucket.filter (fun o => pfxMatch pfx o.key)) :
    list_objects glacier pages =
      ((bucket.filter (fun o => pfxMatch pfx o.key)).filter
        (fun o => !glacier || o.storageClass == "GLACIER")).map (fun o => o.key) := by
  rw [list_objects_eq_pageKeys_join, h, pageKeys_eq_filter_map]

/-- Witness for C5: a three-object bucket, prefix `logs/`, with the two
matching keys split across two pages. -/
theorem list_objects_pagination_transparent_witness :
    list_objects true [some [⟨"logs/a", "GLACIER"⟩], some [⟨"logs/b", "STANDARD"⟩]] =
      ((([⟨"logs/a", "GLACIER"⟩, ⟨"x", "STANDARD"⟩, ⟨"logs/b", "STANDARD"⟩] : List ObjRec).filter
          (fun o => pfxMatch "logs/" o.key)).filter
        (fun o => !true || o.storageClass == "GLACIER")).map (fun o => o.key) :=
  list_objects_pagination_transparent true
    [some [⟨"logs/a", "GLACIER"⟩], some [⟨"logs/b", "STANDARD"⟩]]
    [⟨"logs/a", "GLACIER"⟩, ⟨"x", "STANDARD"⟩, ⟨"logs/b", "STANDARD"⟩] "logs/" (by decide)

/-- Claim C6, counterexample: `--days 0` is accepted by the validation
(`str.isdigit("0")` is true), so the restore operation proceeds to the
provider listing call and exits zero, although `"0"` does not denote a
positive integer. -/
theorem days_zero_accepted :
    restoreOpRun (some "0") (some Tier.Standard) "" [] (fun _ => ProviderResp.ok)
      = ([Event.listCall ""], Except.ok ()) := rfl

/-- Claim C6 (amended): the `--days` validation of the restore and
transit operations runs before any provider call — when `--days` is
absent or not a nonempty digit string both operations stop with a usage
error and an empty event trace — and when `--days` is a nonempty digit
string (which includes `"0"`, a non-positive value) the validation
passes and, with the remaining required arguments present, the first
event is the provider listing call. -/
theorem days_validation_gate :
    (∀ daysArg : Option String, daysArgValid daysArg = false →
      ∀ (tierArg : Option Tier) (pfxArg : String) (pages : List (Option (List ObjRec)))
        (renv : String → ProviderResp) (scArg : Option StorageClass)
        (poll : Nat) (st : List BEntry) (fuel : Nat),
        restoreOpRun daysArg tierArg pfxArg pages renv
            = ([], Except.error "--days must be set to an integer") ∧
          transitOpRun daysArg tierArg scArg poll pfxArg pages renv st fuel
            = ([], Except.error "--days must be set to an integer")) ∧
    (∀ s : String, isDigitStr s = true →
      ∀ (tier : Tier) (pfxArg : String) (pages : List (Option (List ObjRec)))
        (renv : String → ProviderResp),
        (restoreOpRun (some s) (some tier) pfxArg pages renv).1.head?
          = some (Event.listCall pfxArg)) := by
  constructor
  · intro daysArg h tierArg pfxArg pages renv scArg poll st fuel
    constructor
    · simp [restoreOpRun, h]
    · simp [transitOpRun, h]
  · intro s h tier pfxArg pages renv
    simp [restoreOpRun, daysArgValid, h]

/-- Witness for C6: `--days abc` is rejected with no events; `--days 7`
passes and the listing call happens. -/
theorem days_validation_gate_witness :
    restoreOpRun (some "abc") none "" [] (fun _ => ProviderResp.ok)
        = ([], Except.error "--days must be set to an integer") ∧
      (restoreOpRun (some "7") (some Tier.Bulk) "p" [] (fun _ => ProviderResp.ok)).1.head?
        = some (Event.listCall "p") :=
  ⟨(days_validation_gate.1 (some "abc") (by decide) none "" [] (fun _ => ProviderResp.ok)
      none 0 [] 0).1,
   days_validation_gate.2 "7" (by decide) Tier.Bulk "p" [] (fun _ => ProviderResp.ok)⟩

/-- Claim C7, counterexample: when the `head_object` response carries no
`Restore` metadata, `check_restore_status` reports nothing at all — the
trace is the bare metadata fetch, with no log event saying that no
restore metadata is present. -/
theorem check_status_silent_when_no_metadata :
    check_restore_status (fun _ => none) "k" = [Event.headCall "k"] := rfl

/-- Claim C7 (amended): `check_restore_status` performs exactly one
provider call, a metadata-only `head_object` fetch, and never mutates
state; when the response carries restore-state metadata it logs that
status at debug level, and otherwise it emits nothing. -/
theorem check_status_single_head_query :
    ∀ (henv : String → Option String) (k : String),
      ((check_restore_status henv k).filter Event.isProviderCall = [Event.headCall k]) ∧
      (∀ s, henv k = some s →
        check_restore_status henv k
          = [Event.headCall k, Event.logDebug ("Restore status for " ++ k ++ ": " ++ s)]) ∧
      (henv k = none → check_restore_status henv k = [Event.headCall k]) := by
  intro henv k
  refine ⟨?_, ?_, ?_⟩
  · cases h : henv k <;> simp [check_restore_status, h, Event.isProviderCall]
  · intro s h
    simp [check_restore_status, h]
  · intro h
    simp [check_restore_status, h]

/-- Witness for C7: a response with restore metadata is reported. -/
theorem check_status_single_head_query_witness :
    check_restore_status (fun _ => some "ongoing-request=true") "k"
      = [Event.headCall "k",
         Event.logDebug ("Restore status for " ++ "k" ++ ": " ++ "ongoing-request=true")] :=
  (check_status_single_head_query (fun _ => some "ongoing-request=true") "k").2.1
    "ongoing-request=true" rfl

/-- Claim C8: `restore_glacier_objects` is idempotent in the sense of a
second run — when the provider answers `RestoreAlreadyInProgress` for
every key of the batch, the default-policy call logs each conflict as a
warning and completes normally (no error escapes). -/
theorem restore_second_run_idempotent :
    ∀ (env : String → ProviderResp) (keys : List String) (days : Nat) (tier : Tier),
      (∀ k ∈ keys, env k = .clientError "RestoreAlreadyInProgress") →
      restore_glacier_objects env keys days tier true true =
        (keys.flatMap (fun k =>
          [Event.logDebug ("Restoring " ++ k), Event.restoreCall k days tier.str,
           Event.logWarning "RestoreAlreadyInProgress"]), none) := by
  intro env keys days tier h
  show restoreLoop env days tier true keys = _
  induction keys with
  | nil => simp [restoreLoop]
  | cons k rest ih =>
    have hk : env k = .clientError "RestoreAlreadyInProgress" := h k (by simp)
    have hrest := ih (fun k' hk' => h k' (by simp [hk']))
    simp [restoreLoop, hk, hrest]

/-- Witness for C8: a concrete two-key second run. -/
theorem restore_second_run_idempotent_witness :
    restore_glacier_objects (fun _ => .clientError "RestoreAlreadyInProgress")
        ["a", "b"] 3 Tier.Bulk true true =
      ([Event.logDebug "Restoring a", Event.restoreCall "a" 3 "Bulk",
        Event.logWarning "RestoreAlreadyInProgress",
        Event.logDebug "Restoring b", Event.restoreCall "b" 3 "Bulk",
        Event.logWarning "RestoreAlreadyInProgress"], none) :=
  restore_second_run_idempotent (fun _ => .clientError "RestoreAlreadyInProgress")
    ["a", "b"] 3 Tier.Bulk (fun _ _ => rfl)

/-- Claim C10: both batch operations accept the empty batch —
`restore_glacier_objects` on no keys makes no provider call and
completes normally under either policy, and the poll loop on no keys
runs exactly one cycle with no events (no provider call, no sleep) and
terminates successfully. -/
theorem empty_batch_accepted :
    (∀ (renv : String → ProviderResp) (days : Nat) (tier : Tier) (b₁ b₂ : Bool),
      restore_glacier_objects renv [] days tier b₁ b₂ = ([], none)) ∧
    (∀ (fuel : Nat) (st : List BEntry) (sc : StorageClass) (poll : Nat),
      transit_glacier_objects (fuel + 1) st [] sc poll = ⟨[], 1, .done⟩) := by
  constructor
  · intro renv days tier b₁ b₂
    cases b₁ <;> rfl
  · intro fuel st sc poll
    rfl

/-- Claim C3, counterexample: with the conflict policy strict
(`continue_on_restore_already_in_progress = false`) and the error
policy at its default (`continue_on_other_errors = true`), a
non-conflict provider error on the first key aborts the whole call —
the second key receives no restore request — because the strict-conflict
branch of the source runs with no try/except at all. -/
theorem restore_strict_conflict_aborts_despite_error_policy :
    restore_glacier_objects (fun k => if k = "a" then .clientError "AccessDenied" else .ok)
        ["a", "b"] 5 Tier.Standard false true
      = ([Event.logDebug "Restoring a", Event.restoreCall "a" 5 "Standard"],
         some "AccessDenied") := rfl

/-- Claim C3 (amended): under the default conflict policy
(`continue_on_restore_already_in_progress = true`), a provider error
other than `RestoreAlreadyInProgress` is logged and iteration continues
with the remaining keys when `continue_on_other_errors` is true, and
aborts the call when it is false; under the strict conflict policy,
every provider error aborts the call regardless of the error policy. -/
theorem restore_error_policy :
    ∀ (env : String → ProviderResp) (k : String) (rest : List String)
      (days : Nat) (tier : Tier) (c : String),
      env k = .clientError c →
      c ≠ "RestoreAlreadyInProgress" →
      (restore_glacier_objects env (k :: rest) days tier true true =
        (Event.logDebug ("Restoring " ++ k) :: Event.restoreCall k days tier.str ::
          Event.logError c ::
          Event.logWarning "Continuing because continue_on_other_errors is set to True" ::
          (restore_glacier_objects env rest days tier true true).1,
         (restore_glacier_objects env rest days tier true true).2)) ∧
      (restore_glacier_objects env (k :: rest) days tier true false =
        ([Event.logDebug ("Restoring " ++ k), Event.restoreCall k days tier.str], some c)) ∧
      (∀ b, restore_glacier_objects env (k :: rest) days tier false b =
        ([Event.logDebug ("Restoring " ++ k), Event.restoreCall k days tier.str], some c)) := by
  intro env k rest days tier c h hne
  refine ⟨?_, ?_, ?_⟩
  · simp [restore_glacier_objects, restoreLoop, h, hne]
  · simp [restore_glacier_objects, restoreLoop, h, hne]
  · intro b
    simp [restore_glacier_objects, restoreStrict, h]

/-- Witness for C3: under the default policies, a hard error on the
first key is logged and the second key still gets its restore call. -/
theorem restore_error_policy_witness :
    restore_glacier_objects (fun k => if k = "a" then .clientError "AccessDenied" else .ok)
        ["a", "b"] 5 Tier.Standard true true =
      (Event.logDebug ("Restoring " ++ "a") :: Event.restoreCall "a" 5 Tier.Standard.str ::
        Event.logError "AccessDenied" ::
        Event.logWarning "Continuing because continue_on_other_errors is set to True" ::
        (restore_glacier_objects (fun k => if k = "a" then .clientError "AccessDenied" else .ok)
          ["b"] 5 Tier.Standard true true).1,
       (restore_glacier_objects (fun k => if k = "a" then .clientError "AccessDenied" else .ok)
         ["b"] 5 Tier.Standard true true).2) :=
  (restore_error_policy (fun k => if k = "a" then .clientError "AccessDenied" else .ok)
    "a" ["b"] 5 Tier.Standard "AccessDenied" rfl (by decide)).1

/-- Every event the per-key transit body can emit: the listing call for
its own key, the copy call for its own key with the configured target
class, or a log line. -/
theorem transitOne_events (st : List BEntry) (k : String) (sc : StorageClass) (e : Event)
    (h : e ∈ (transitOne st k sc).1) :
    e = Event.listCall k ∨ e = Event.copyCall k sc.str ∨
      (∃ m, e = Event.logDebug m) ∨ (∃ m, e = Event.logWarning m) := by
  unfold transitOne at h
  split at h
  · simp only [List.mem_singleton] at h
    exact Or.inl h
  · split at h
    · split at h
      · simp only [List.mem_cons, List.mem_singleton, List.not_mem_nil, or_false] at h
        rcases h with rfl | rfl | rfl | rfl
        · exact Or.inl rfl
        · exact Or.inr (Or.inr (Or.inl ⟨_, rfl⟩))
        · exact Or.inr (Or.inl rfl)
        · exact Or.inr (Or.inr (Or.inl ⟨_, rfl⟩))
      · split at h
        · simp only [List.mem_cons, List.mem_singleton, List.not_mem_nil, or_false] at h
          rcases h with rfl | rfl | rfl | rfl
          · exact Or.inl rfl
          · exact Or.inr (Or.inr (Or.inl ⟨_, rfl⟩))
          · exact Or.inr (Or.inl rfl)
          · exact Or.inr (Or.inr (Or.inr ⟨_, rfl⟩))
        · simp only [List.mem_cons, List.mem_singleton, List.not_mem_nil, or_false] at h
          rcases h with rfl | rfl | rfl
          · exact Or.inl rfl
          · exact Or.inr (Or.inr (Or.inl ⟨_, rfl⟩))
          · exact Or.inr (Or.inl rfl)
    · simp only [List.mem_cons, List.mem_singleton, List.not_mem_nil, or_false] at h
      rcases h with rfl | rfl
      · exact Or.inl rfl
      · exact Or.inr (Or.inr (Or.inl ⟨_, rfl⟩))
  · simp only [List.mem_singleton] at h
    exact Or.inl h

/-- A cycle's event trace contains no sleep. -/
theorem transitKeys_no_sleep (sc : StorageClass) :
    ∀ (keys : List String) (st : List BEntry) (s : Nat),
      Event.sleep s ∉ (transitKeys sc st keys).1 := by
  intro keys
  induction keys with
  | nil => intro st s h; simp [transitKeys] at h
  | cons k rest ih =>
    intro st s h
    unfold transitKeys at h
    split at h
    · rename_i evs a heq
      have := transitOne_events st k sc (Event.sleep s) (by rw [heq]; exact h)
      rcases this with h' | h' | ⟨m, h'⟩ | ⟨m, h'⟩ <;> simp at h'
    · rename_i evs p st' heq
      rw [List.mem_append] at h
      rcases h with h | h
      · have := transitOne_events st k sc (Event.sleep s) (by rw [heq]; exact h)
        rcases this with h' | h' | ⟨m, h'⟩ | ⟨m, h'⟩ <;> simp at h'
      · exact ih st' s h

/-- How one `copy_object` call can change a bucket entry: the key never
changes, and the storage class is either untouched or set to the copy's
target class. -/
def entryStep (t : String) (a b : BEntry) : Prop :=
  b.key = a.key ∧ (b.storageClass = a.storageClass ∨ b.storageClass = t)

theorem entryStep_refl (t : String) (a : BEntry) : entryStep t a a :=
  ⟨rfl, Or.inl rfl⟩

theorem forall₂_entryStep_refl (t : String) :
    ∀ l : List BEntry, List.Forall₂ (entryStep t) l l := by
  intro l
  induction l with
  | nil => exact List.Forall₂.nil
  | cons a rest ih => exact List.Forall₂.cons (entryStep_refl t a) ih

/-- `copy_object` relates the old and new bucket states entrywise. -/
theorem copyObject_entryStep (st : List BEntry) (k t : String) :
    List.Forall₂ (entryStep t) st (copyObject st k t).2 := by
  induction st with
  | nil => exact List.Forall₂.nil
  | cons e rest ih =>
    by_cases he : e.key = k
    · rcases hp : popResp e.copyScript with ⟨r, s'⟩
      cases r with
      | ok =>
        have hc : copyObject (e :: rest) k t
            = (.ok, { e with storageClass := t, copyScript := s' } :: rest) := by
          simp [copyObject, he, hp]
        rw [hc]
        exact List.Forall₂.cons ⟨rfl, Or.inr rfl⟩ (forall₂_entryStep_refl t rest)
      | clientError c =>
        have hc : copyObject (e :: rest) k t
            = (.clientError c, { e with copyScript := s' } :: rest) := by
          simp [copyObject, he, hp]
        rw [hc]
        exact List.Forall₂.cons ⟨rfl, Or.inl rfl⟩ (forall₂_entryStep_refl t rest)
    · simp only [copyObject, he, if_false]
      exact List.Forall₂.cons (entryStep_refl t e) ih

theorem forall₂_filter_nil {R : BEntry → BEntry → Prop} {p : BEntry → Bool}
    (hp : ∀ a b, R a b → p a = p b) :
    ∀ {st st' : List BEntry}, List.Forall₂ R st st' →
      st.filter p = [] → st'.filter p = [] := by
  intro st st' hf
  induction hf with
  | nil => intro h; exact h
  | cons hab htl ih =>
    rename_i a b l l'
    intro h
    have hpb := hp a b hab
    cases hpa : p a with
    | false =>
      have hpb' : p b = false := by rw [← hpb]; exact hpa
      simp only [List.filter, hpa] at h
      simp only [List.filter, hpb']
      exact ih h
    | true =>
      simp only [List.filter, hpa] at h
      exact absurd h (by simp)

theorem forall₂_filter_singleton {R : BEntry → BEntry → Prop} {p : BEntry → Bool}
    (hp : ∀ a b, R a b → p a = p b) :
    ∀ {st st' : List BEntry}, List.Forall₂ R st st' →
      ∀ {w : BEntry}, st.filter p = [w] → ∃ w', st'.filter p = [w'] ∧ R w w' := by
  intro st st' hf
  induction hf with
  | nil => intro w h; simp at h
  | cons hab htl ih =>
    rename_i a b l l'
    intro w h
    have hpb := hp a b hab
    cases hpa : p a with
    | false =>
      have hpb' : p b = false := by rw [← hpb]; exact hpa
      simp only [List.filter, hpa] at h
      simp only [List.filter, hpb']
      exact ih h
    | true =>
      have hpb' : p b = true := by rw [← hpb]; exact hpa
      simp only [List.filter, hpa] at h
      simp only [List.filter, hpb']
      have ha : a = w := (List.cons_eq_cons.mp h).1
      have hl : l.filter p = [] := (List.cons_eq_cons.mp h).2
      refine ⟨b, ?_, ha ▸ hab⟩
      rw [forall₂_filter_nil hp htl hl]

/-- Invariant justifying the per-cycle skip: the single-key listing for
`k` matches exactly one entry and that entry is no longer archived. -/
def NonArchivedUnique (k : String) (st : List BEntry) : Prop :=
  ∃ w, st.filter (fun e => pfxMatch k e.key) = [w] ∧ w.storageClass ≠ "GLACIER"

theorem NonArchivedUnique_copyObject {k : String} {st : List BEntry} (k' t : String)
    (ht : t ≠ "GLACIER") (h : NonArchivedUnique k st) :
    NonArchivedUnique k (copyObject st k' t).2 := by
  obtain ⟨w, hf, hw⟩ := h
  have hstep := copyObject_entryStep st k' t
  have hp : ∀ a b : BEntry, entryStep t a b →
      (fun e => pfxMatch k e.key) a = (fun e => pfxMatch k e.key) b := by
    intro a b hab
    simp only [hab.1]
  obtain ⟨w', hf', hr⟩ := forall₂_filter_singleton hp hstep hf
  refine ⟨w', hf', ?_⟩
  rcases hr.2 with hc | hc
  · rw [hc]; exact hw
  · rw [hc]; exact ht

/-- Under the invariant, the single-key listing answers the one
non-archived record. -/
theorem listResp_of_nonArchivedUnique {k : String} {st : List BEntry} {w : BEntry}
    (hf : st.filter (fun e => pfxMatch k e.key) = [w]) :
    listResp st k = some [w.toRec] := by
  simp [listResp, hf]

/-- Under the invariant, the transit body for key `k` takes the skip
branch: two events, no copy call, state unchanged. -/
theorem transitOne_skips_nonArchived {k : String} {st : List BEntry}
    (sc : StorageClass) (h : NonArchivedUnique k st) :
    transitOne st k sc = ([Event.listCall k, Event.logDebug ("Skipping " ++ k)],
      .ok (false, st)) := by
  obtain ⟨w, hf, hw⟩ := h
  have hl := listResp_of_nonArchivedUnique hf
  have hcls : w.toRec.storageClass = w.storageClass := rfl
  unfold transitOne
  rw [hl]
  simp [BEntry.toRec, hw]

/-- The transit body never emits a copy call for a key satisfying the
invariant, whichever key it is processing, and it preserves the
invariant. -/
theorem transitOne_no_copy_preserves {k : String} {st : List BEntry}
    (k' : String) (sc : StorageClass) (h : NonArchivedUnique k st) :
    (∀ t', Event.copyCall k t' ∉ (transitOne st k' sc).1) ∧
      (∀ evs p st', transitOne st k' sc = (evs, .ok (p, st')) →
        NonArchivedUnique k st') := by
  constructor
  · intro t' hmem
    rcases transitOne_events st k' sc (Event.copyCall k t') hmem with h' | h' | ⟨m, h'⟩ | ⟨m, h'⟩
    · exact absurd h' (by simp)
    · have hk : k = k' := by
        injection h' with h₁ h₂
      subst hk
      rw [transitOne_skips_nonArchived sc h] at hmem
      simp at hmem
    · exact absurd h' (by simp)
    · exact absurd h' (by simp)
  · intro evs p st' heq
    by_cases hk : k' = k
    · subst hk
      rw [transitOne_skips_nonArchived sc h] at heq
      have : st = st' := by injection heq with h₁ h₂; injection h₂ with h₃; injection h₃
      exact this ▸ h
    · unfold transitOne at heq
      split at heq
      · exact absurd heq (by simp)
      · split at heq
        · split at heq
          · rename_i st₂ hcopy
            have hst : st' = st₂ := by
              injection heq with h₁ h₂; injection h₂ with h₃
              exact (congrArg Prod.snd h₃).symm
            have := NonArchivedUnique_copyObject k' sc.str (StorageClass.str_ne_glacier sc) h
            rw [hcopy] at this
            exact hst ▸ this
          · split at heq
            · rename_i c st₂ hcopy hc
              have hst : st' = st₂ := by
                injection heq with h₁ h₂; injection h₂ with h₃
                exact (congrArg Prod.snd h₃).symm
              have := NonArchivedUnique_copyObject k' sc.str (StorageClass.str_ne_glacier sc) h
              rw [hcopy] at this
              exact hst ▸ this
            · exact absurd heq (by simp)
        · have hst : st = st' := by
            injection heq with h₁ h₂; injection h₂ with h₃
            exact congrArg Prod.snd h₃
          exact hst ▸ h
      · exact absurd heq (by simp)

/-- Unfolding the cycle fold over a key whose body succeeds. -/
theorem transitKeys_cons_ok {sc : StorageClass} {st st₁ : List BEntry} {k : String}
    {rest : List String} {evs : List Event} {p₁ : Bool}
    (h : transitOne st k sc = (evs, .ok (p₁, st₁))) :
    transitKeys sc st (k :: rest) =
      (evs ++ (transitKeys sc st₁ rest).1,
       match (transitKeys sc st₁ rest).2 with
       | .ok (p₂, stf) => .ok (p₁ || p₂, stf)
       | .error a => .error a) := by
  simp only [transitKeys, h]

/-- Unfolding the cycle fold over a key whose body raises. -/
theorem transitKeys_cons_error {sc : StorageClass} {st : List BEntry} {k : String}
    {rest : List String} {evs : List Event} {a : AbortKind}
    (h : transitOne st k sc = (evs, .error a)) :
    transitKeys sc st (k :: rest) = (evs, .error a) := by
  simp only [transitKeys, h]

/-- Unfolding one funded loop iteration whose cycle raises. -/
theorem transitLoop_succ_error {sc : StorageClass} {st : List BEntry} {keys : List String}
    {poll : Nat} {evs : List Event} {a : AbortKind} (fuel : Nat)
    (h : transitKeys sc st keys = (evs, .error a)) :
    transitLoop (fuel + 1) st keys sc poll = ⟨evs, 1, .aborted a⟩ := by
  simp only [transitLoop, h]

/-- Unfolding one funded loop iteration whose cycle ends with no
pending key. -/
theorem transitLoop_succ_done {sc : StorageClass} {st st' : List BEntry}
    {keys : List String} {poll : Nat} {evs : List Event} (fuel : Nat)
    (h : transitKeys sc st keys = (evs, .ok (false, st'))) :
    transitLoop (fuel + 1) st keys sc poll = ⟨evs, 1, .done⟩ := by
  simp only [transitLoop, h, Bool.false_eq_true, if_false]

/-- Unfolding one funded loop iteration whose cycle leaves a pending
key: sleep, then recurse on the remaining fuel. -/
theorem transitLoop_succ_pending {sc : StorageClass} {st st' : List BEntry}
    {keys : List String} {poll : Nat} {evs : List Event} (fuel : Nat)
    (h : transitKeys sc st keys = (evs, .ok (true, st'))) :
    transitLoop (fuel + 1) st keys sc poll =
      ⟨evs ++ Event.sleep poll :: (transitLoop fuel st' keys sc poll).events,
       (transitLoop fuel st' keys sc poll).cycles + 1,
       (transitLoop fuel st' keys sc poll).result⟩ := by
  simp only [transitLoop, h, if_true]

/-- A whole cycle never emits a copy call for a key satisfying the
invariant, and preserves the invariant in its outgoing state. -/
theorem transitKeys_no_copy_preserves {k : String} (sc : StorageClass) :
    ∀ (keys : List String) (st : List BEntry), NonArchivedUnique k st →
      (∀ t', Event.copyCall k t' ∉ (transitKeys sc st keys).1) ∧
        (∀ p st', (transitKeys sc st keys).2 = .ok (p, st') →
          NonArchivedUnique k st') := by
  intro keys
  induction keys with
  | nil =>
    intro st h
    refine ⟨by intro t' hm; simp [transitKeys] at hm, ?_⟩
    intro p st' heq
    simp only [transitKeys] at heq
    have : st = st' := by injection heq with h₁; injection h₁
    exact this ▸ h
  | cons k' rest ih =>
    intro st h
    have hone := transitOne_no_copy_preserves k' sc h
    rcases hres : transitOne st k' sc with ⟨evs, res⟩
    cases res with
    | error a =>
      rw [transitKeys_cons_error hres]
      refine ⟨?_, by intro p st' heq; simp at heq⟩
      intro t' hm
      exact hone.1 t' (hres ▸ hm)
    | ok pr =>
      rcases pr with ⟨p₁, st₁⟩
      have h₁ : NonArchivedUnique k st₁ := hone.2 evs p₁ st₁ hres
      have hrest := ih st₁ h₁
      rw [transitKeys_cons_ok hres]
      constructor
      · intro t' hm
        simp only [List.mem_append] at hm
        rcases hm with hm | hm
        · exact hone.1 t' (hres ▸ hm)
        · exact hrest.1 t' hm
      · intro p st' heq
        simp only at heq
        rcases hr₂ : (transitKeys sc st₁ rest).2 with a | pr₂
        · rw [hr₂] at heq
          simp at heq
        · rcases pr₂ with ⟨p₂, st₂⟩
          rw [hr₂] at heq
          have : st₂ = st' := by
            injection heq with h₁; injection h₁
          exact this ▸ hrest.2 p₂ st₂ hr₂

/-- The whole poll loop never emits a copy call for a key satisfying
the invariant. -/
theorem transitLoop_no_copy {k : String} (sc : StorageClass) (poll : Nat) :
    ∀ (fuel : Nat) (st : List BEntry) (keys : List String), NonArchivedUnique k st →
      ∀ t', Event.copyCall k t' ∉ (transitLoop fuel st keys sc poll).events := by
  intro fuel
  induction fuel with
  | zero => intro st keys h t' hm; simp [transitLoop] at hm
  | succ n ih =>
    intro st keys h t' hm
    have hkeys := transitKeys_no_copy_preserves sc keys st h
    rcases hres : transitKeys sc st keys with ⟨evs, res⟩
    cases res with
    | error a =>
      rw [transitLoop_succ_error n hres] at hm
      exact hkeys.1 t' (hres ▸ hm)
    | ok pr =>
      rcases pr with ⟨pending, st'⟩
      cases pending with
      | false =>
        rw [transitLoop_succ_done n hres] at hm
        exact hkeys.1 t' (hres ▸ hm)
      | true =>
        rw [transitLoop_succ_pending n hres] at hm
        simp only [List.mem_append, List.mem_cons] at hm
        rcases hm with hm | hm | hm
        · exact hkeys.1 t' (hres ▸ hm)
        · simp at hm
        · have h' : NonArchivedUnique k st' :=
            hkeys.2 true st' (by rw [hres])
          exact ih st' keys h' t' hm

/-- Claim C1, counterexample: key `a` transitions successfully in cycle
1, yet cycle 2 still issues a provider listing call for it — the trace
contains `Event.listCall "a"` both before and after the sleep.  The
skip is recomputed from the provider each cycle; there is no in-memory
done set, so a finished key keeps receiving one listing call per
remaining cycle, contradicting the claim that such a key receives no
further provider calls. -/
theorem transit_relists_transitioned_key :
    transit_glacier_objects 3
        [⟨"a", "GLACIER", [.ok]⟩, ⟨"b", "GLACIER", [.clientError "InvalidObjectState"]⟩]
        ["a", "b"] .Standard 7
      = ⟨[Event.listCall "a", Event.logDebug "Transiting a", Event.copyCall "a" "STANDARD",
          Event.logDebug "Transiting a successful",
          Event.listCall "b", Event.logDebug "Transiting b", Event.copyCall "b" "STANDARD",
          Event.logWarning "InvalidObjectState",
          Event.sleep 7,
          Event.listCall "a", Event.logDebug "Skipping a",
          Event.listCall "b", Event.logDebug "Transiting b", Event.copyCall "b" "STANDARD",
          Event.logDebug "Transiting b successful"],
         2, .done⟩ := by decide

/-- Claim C1 (amended): a key whose single-entry listing is already
non-archived — in particular a key transitioned successfully in an
earlier cycle — is never given another copy attempt in any later cycle;
it is, however, re-listed once per cycle, since the skip is recomputed
from the provider's storage class rather than from an in-memory done
set. -/
theorem transit_no_copy_on_nonarchived_key :
    ∀ (fuel : Nat) (st : List BEntry) (keys : List String) (sc : StorageClass)
      (poll : Nat) (k : String) (w : BEntry),
      st.filter (fun e => pfxMatch k e.key) = [w] →
      w.storageClass ≠ "GLACIER" →
      ∀ t', Event.copyCall k t' ∉ (transit_glacier_objects fuel st keys sc poll).events :=
  fun fuel st keys sc poll k w h₁ h₂ t' =>
    transitLoop_no_copy sc poll fuel st keys ⟨w, h₁, h₂⟩ t'

/-- Witness for C1 (amended): with `a` already on STANDARD, a two-cycle
run copies only `b`, never `a`. -/
theorem transit_no_copy_on_nonarchived_key_witness :
    Event.copyCall "a" "STANDARD" ∉
      (transit_glacier_objects 2
        [⟨"a", "STANDARD", []⟩, ⟨"b", "GLACIER", [.clientError "InvalidObjectState"]⟩]
        ["a", "b"] .Standard 3).events :=
  transit_no_copy_on_nonarchived_key 2
    [⟨"a", "STANDARD", []⟩, ⟨"b", "GLACIER", [.clientError "InvalidObjectState"]⟩]
    ["a", "b"] .Standard 3 "a" ⟨"a", "STANDARD", []⟩ (by decide) (by decide) "STANDARD"

/-- A copy attempt never adds scripted responses. -/
theorem copyObject_scriptSum_le (st : List BEntry) (k t : String) :
    scriptSum (copyObject st k t).2 ≤ scriptSum st := by
  induction st with
  | nil => simp [copyObject, scriptSum]
  | cons e rest ih =>
    by_cases he : e.key = k
    · rcases hp : popResp e.copyScript with ⟨r, s'⟩
      have hlen : s'.length ≤ e.copyScript.length := by
        cases hs : e.copyScript with
        | nil => simp [popResp, hs] at hp; simp [hp.2]
        | cons r₀ rest₀ =>
          simp [popResp, hs] at hp
          simp [hp.2, hs]
      cases r with
      | ok =>
        have hc : copyObject (e :: rest) k t
            = (.ok, { e with storageClass := t, copyScript := s' } :: rest) := by
          simp [copyObject, he, hp]
        rw [hc]
        simp only [scriptSum, List.map_cons, List.sum_cons]
        exact Nat.add_le_add hlen (Nat.le_refl _)
      | clientError c =>
        have hc : copyObject (e :: rest) k t
            = (.clientError c, { e with copyScript := s' } :: rest) := by
          simp [copyObject, he, hp]
        rw [hc]
        simp only [scriptSum, List.map_cons, List.sum_cons]
        exact Nat.add_le_add hlen (Nat.le_refl _)
    · simp only [copyObject, he, if_false]
      simp only [scriptSum, List.map_cons, List.sum_cons]
      exact Nat.add_le_add (Nat.le_refl _) ih

/-- A copy attempt that answers a `ClientError` other than the
no-such-key fallback consumed one scripted response, so the measure
strictly drops. -/
theorem copyObject_clientError_lt (st : List BEntry) (k t c : String)
    (h : (copyObject st k t).1 = .clientError c) (hc : c ≠ "NoSuchKey") :
    scriptSum (copyObject st k t).2 < scriptSum st := by
  induction st with
  | nil =>
    exfalso
    apply hc
    simp [copyObject] at h
    exact h.symm
  | cons e rest ih =>
    by_cases he : e.key = k
    · rcases hp : popResp e.copyScript with ⟨r, s'⟩
      cases r with
      | ok =>
        exfalso
        have hco : (copyObject (e :: rest) k t).1 = .ok := by
          simp [copyObject, he, hp]
        rw [h] at hco
        exact ProviderResp.noConfusion hco
      | clientError c' =>
        have hscript : e.copyScript = .clientError c' :: s' := by
          cases hs : e.copyScript with
          | nil => simp [popResp, hs] at hp
          | cons r₀ rest₀ => simp [popResp, hs] at hp; simp [hp.1, hp.2]
        have hcc : copyObject (e :: rest) k t
            = (.clientError c', { e with copyScript := s' } :: rest) := by
          simp [copyObject, he, hp]
        rw [hcc]
        simp only [scriptSum, List.map_cons, List.sum_cons, hscript, List.length_cons]
        exact Nat.add_lt_add_right (Nat.lt_succ_self _) _
    · have hcc : copyObject (e :: rest) k t
          = ((copyObject rest k t).1, e :: (copyObject rest k t).2) := by
        simp [copyObject, he]
      rw [hcc] at h ⊢
      simp only [scriptSum, List.map_cons, List.sum_cons]
      exact Nat.add_lt_add_left (ih h) _

/-- A successful per-key body never raises the measure, and strictly
lowers it when it reports the key as pending. -/
theorem transitOne_scriptSum {st st' : List BEntry} {k : String} {sc : StorageClass}
    {evs : List Event} {p : Bool}
    (h : transitOne st k sc = (evs, .ok (p, st'))) :
    scriptSum st' ≤ scriptSum st ∧ (p = true → scriptSum st' < scriptSum st) := by
  unfold transitOne at h
  split at h
  · exact absurd h (by simp)
  · split at h
    · split at h
      · rename_i st₂ hcopy
        have h₁ : st' = st₂ := by
          injection h with hl hr; injection hr with hq
          exact (congrArg Prod.snd hq).symm
        have h₂ : p = false := by
          injection h with hl hr; injection hr with hq
          exact (congrArg Prod.fst hq).symm
        subst h₁ h₂
        refine ⟨?_, by intro hfalse; exact absurd hfalse (by simp)⟩
        have := copyObject_scriptSum_le st k sc.str
        rw [hcopy] at this
        exact this
      · split at h
        · rename_i c st₂ hcopy hc
          have h₁ : st' = st₂ := by
            injection h with hl hr; injection hr with hq
            exact (congrArg Prod.snd hq).symm
          subst h₁
          have hfst : (copyObject st k sc.str).1 = .clientError c := by rw [hcopy]
          have hlt := copyObject_clientError_lt st k sc.str c hfst (by rw [hc]; decide)
          rw [hcopy] at hlt
          exact ⟨Nat.le_of_lt hlt, fun _ => hlt⟩
        · exact absurd h (by simp)
    · have h₁ : st' = st := by
        injection h with hl hr; injection hr with hq
        exact (congrArg Prod.snd hq).symm
      have h₂ : p = false := by
        injection h with hl hr; injection hr with hq
        exact (congrArg Prod.fst hq).symm
      subst h₁ h₂
      exact ⟨Nat.le_refl _, by intro hfalse; exact absurd hfalse (by simp)⟩
  · exact absurd h (by simp)

/-- A successful cycle never raises the measure, and strictly lowers it
when some key was pending. -/
theorem transitKeys_scriptSum {sc : StorageClass} :
    ∀ (keys : List String) (st : List BEntry) {evs : List Event} {p : Bool}
      {st' : List BEntry},
      transitKeys sc st keys = (evs, .ok (p, st')) →
      scriptSum st' ≤ scriptSum st ∧ (p = true → scriptSum st' < scriptSum st) := by
  intro keys
  induction keys with
  | nil =>
    intro st evs p st' h
    simp only [transitKeys] at h
    simp only [transitKeys, Prod.mk.injEq, Except.ok.injEq] at h
    obtain ⟨hevs, hp, hst⟩ := h
    subst hp; subst hst
    exact ⟨Nat.le_refl _, by intro hfalse; exact absurd hfalse (by simp)⟩
  | cons k rest ih =>
    intro st evs p st' h
    rcases hres : transitOne st k sc with ⟨evs₁, res₁⟩
    cases res₁ with
    | error a =>
      rw [transitKeys_cons_error hres] at h
      exact absurd h (by simp)
    | ok pr =>
      rcases pr with ⟨p₁, st₁⟩
      have hone := transitOne_scriptSum hres
      rw [transitKeys_cons_ok hres] at h
      rcases hr₂ : (transitKeys sc st₁ rest).2 with a | ⟨p₂, st₂⟩
      · rw [hr₂] at h
        exact absurd h (by simp)
      · rw [hr₂] at h
        have hrec : transitKeys sc st₁ rest = ((transitKeys sc st₁ rest).1, .ok (p₂, st₂)) := by
          rw [← hr₂]
        have hrest := ih st₁ hrec
        have h₁ : st₂ = st' := by
          injection h with hl hr; injection hr with hq
          exact (congrArg Prod.snd hq)
        have h₂ : p = (p₁ || p₂) := by
          injection h with hl hr; injection hr with hq
          exact (congrArg Prod.fst hq).symm
        subst h₁
        refine ⟨Nat.le_trans hrest.1 hone.1, ?_⟩
        intro hp
        rw [h₂] at hp
        rcases Bool.or_eq_true_iff.mp hp with hp₁ | hp₂
        · exact Nat.lt_of_le_of_lt hrest.1 (hone.2 hp₁)
        · exact Nat.lt_of_lt_of_le (hrest.2 hp₂) hone.1

/-- With fuel exceeding the measure, the poll loop cannot run out of
fuel: it ends in `.done` or `.aborted`. -/
theorem transitLoop_no_outOfFuel :
    ∀ (fuel : Nat) (st : List BEntry) (keys : List String) (sc : StorageClass) (poll : Nat),
      scriptSum st < fuel →
      (transitLoop fuel st keys sc poll).result ≠ .outOfFuel := by
  intro fuel
  induction fuel with
  | zero => intro st keys sc poll h; exact absurd h (Nat.not_lt_zero _)
  | succ n ih =>
    intro st keys sc poll hlt
    rcases hres : transitKeys sc st keys with ⟨evs, res⟩
    cases res with
    | error a =>
      rw [transitLoop_succ_error n hres]
      simp
    | ok pr =>
      rcases pr with ⟨pending, st'⟩
      cases pending with
      | false =>
        rw [transitLoop_succ_done n hres]
        simp
      | true =>
        rw [transitLoop_succ_pending n hres]
        simp only
        have hmeas := transitKeys_scriptSum keys st hres
        have hstep : scriptSum st' < scriptSum st := hmeas.2 rfl
        have : scriptSum st' < n := Nat.lt_of_lt_of_le hstep (Nat.lt_succ_iff.mp hlt)
        exact ih st' keys sc poll this

/-- Claim C2: a poll cycle with zero pending outcomes (no key reported
`InvalidObjectState`; every key transitioned or was skipped) ends the
loop successfully with no further sleep; any run whose fuel exceeds the
total number of scripted copy responses cannot run out of fuel, so a
batch in which every key pends only finitely often terminates; and in
the two-key scenario — first key pending once then succeeding, second
key succeeding immediately — the loop runs exactly 2 cycles and ends
cleanly. -/
theorem poll_loop_termination :
    (∀ (st st' : List BEntry) (keys : List String) (sc : StorageClass) (poll : Nat)
        (evs : List Event),
      transitKeys sc st keys = (evs, .ok (false, st')) →
      (∀ fuel, transitLoop (fuel + 1) st keys sc poll = ⟨evs, 1, .done⟩) ∧
        ∀ s, Event.sleep s ∉ evs) ∧
    (∀ (st : List BEntry) (keys : List String) (sc : StorageClass) (poll : Nat),
      (transitLoop (scriptSum st + 1) st keys sc poll).result ≠ .outOfFuel) ∧
    ((transit_glacier_objects 3
        [⟨"a", "GLACIER", [.clientError "InvalidObjectState"]⟩, ⟨"b", "GLACIER", [.ok]⟩]
        ["a", "b"] .Standard 7).cycles = 2 ∧
      (transit_glacier_objects 3
        [⟨"a", "GLACIER", [.clientError "InvalidObjectState"]⟩, ⟨"b", "GLACIER", [.ok]⟩]
        ["a", "b"] .Standard 7).result = .done) := by
  refine ⟨?_, ?_, by decide, by decide⟩
  · intro st st' keys sc poll evs h
    refine ⟨fun fuel => transitLoop_succ_done fuel h, ?_⟩
    intro s hm
    have : Event.sleep s ∈ (transitKeys sc st keys).1 := by rw [h]; exact hm
    exact transitKeys_no_sleep sc keys st s this
  · intro st keys sc poll
    exact transitLoop_no_outOfFuel (scriptSum st + 1) st keys sc poll (Nat.lt_succ_self _)

/-- Witness for C2: a cycle over one already-skipped key terminates the
loop at once, with no sleep event in its trace. -/
theorem poll_loop_termination_witness :
    transitLoop (4 + 1) [⟨"a", "STANDARD", []⟩] ["a"] .Standard 9
      = ⟨[Event.listCall "a", Event.logDebug "Skipping a"], 1, .done⟩ :=
  (poll_loop_termination.1 [⟨"a", "STANDARD", []⟩] [⟨"a", "STANDARD", []⟩] ["a"]
    .Standard 9 [Event.listCall "a", Event.logDebug "Skipping a"] rfl).1 4

/-- Claim C4: when a key's copy attempt raises a `ClientError` whose
code is not `InvalidObjectState`, the whole poll loop aborts right
there with that error: the key is neither retried nor skipped, the
remaining keys of the cycle are not attempted (no events for them), and
no further cycle runs (exactly one cycle, whatever fuel remains). -/
theorem transit_hard_error_aborts_loop :
    ∀ (st : List BEntry) (k : String) (rest : List String) (sc : StorageClass)
      (poll : Nat) (obj : ObjRec) (c : String),
      listResp st k = some [obj] →
      obj.storageClass = "GLACIER" →
      (copyObject st k sc.str).1 = .clientError c →
      c ≠ "InvalidObjectState" →
      ∀ fuel, transitLoop (fuel + 1) st (k :: rest) sc poll =
        ⟨[Event.listCall k, Event.logDebug ("Transiting " ++ k), Event.copyCall k sc.str],
         1, .aborted (.raised c)⟩ := by
  intro st k rest sc poll obj c hl hg hc hne fuel
  have hone : transitOne st k sc =
      ([Event.listCall k, Event.logDebug ("Transiting " ++ k), Event.copyCall k sc.str],
       .error (.raised c)) := by
    unfold transitOne
    rw [hl]
    rcases hco : copyObject st k sc.str with ⟨r, st₂⟩
    have : r = .clientError c := by rw [← hc, hco]
    subst this
    simp [hg, hne]
  rw [transitLoop_succ_error fuel (transitKeys_cons_error hone)]

/-- Witness for C4: an `AccessDenied` on the first key's copy aborts a
two-key batch at once. -/
theorem transit_hard_error_aborts_loop_witness :
    transitLoop (0 + 1) [⟨"a", "GLACIER", [.clientError "AccessDenied"]⟩] ["a", "b"]
        .Standard 5
      = ⟨[Event.listCall "a", Event.logDebug ("Transiting " ++ "a"),
          Event.copyCall "a" StorageClass.Standard.str],
         1, .aborted (.raised "AccessDenied")⟩ :=
  transit_hard_error_aborts_loop [⟨"a", "GLACIER", [.clientError "AccessDenied"]⟩]
    "a" ["b"] .Standard 5 ⟨"a", "GLACIER"⟩ "AccessDenied"
    (by decide) (by decide) (by decide) (by decide) 0

/-- Claim C9, counterexample: a key whose single-key listing matches no
object at all (the key was deleted) does not fail the assertion — the
provider omits the `Contents` field and the `rsp["Contents"]` lookup
itself raises, so the abort is a `KeyError`, not an `AssertionError`.
The run still aborts either way. -/
theorem transit_zero_match_is_keyerror_not_assert :
    transit_glacier_objects 1 [] ["a"] .Standard 0
        = ⟨[Event.listCall "a"], 1, .aborted .keyError⟩ ∧
      AbortKind.keyError ≠ AbortKind.assertFailure := by decide

/-- Claim C9 (amended): the per-key storage-class re-check is safe only
when the single-key listing matches exactly one object.  A listing
whose `Contents` holds a number of records other than one fails the
`assert len(rsp["Contents"]) == 1` assertion, and a listing that
matches nothing omits `Contents` so the lookup raises a `KeyError`;
in both cases the entire run aborts at once — the key is not skipped,
no transition error is raised, no further key or cycle runs. -/
theorem transit_listing_cardinality_aborts :
    ∀ (st : List BEntry) (k : String) (rest : List String) (sc : StorageClass) (poll : Nat),
      (listResp st k = none →
        ∀ fuel, transitLoop (fuel + 1) st (k :: rest) sc poll
          = ⟨[Event.listCall k], 1, .aborted .keyError⟩) ∧
      (∀ l, listResp st k = some l → l.length ≠ 1 →
        ∀ fuel, transitLoop (fuel + 1) st (k :: rest) sc poll
          = ⟨[Event.listCall k], 1, .aborted .assertFailure⟩) := by
  intro st k rest sc poll
  constructor
  · intro hl fuel
    have hone : transitOne st k sc = ([Event.listCall k], .error .keyError) := by
      unfold transitOne
      rw [hl]
    rw [transitLoop_succ_error fuel (transitKeys_cons_error hone)]
  · intro l hl hlen fuel
    have hone : transitOne st k sc = ([Event.listCall k], .error .assertFailure) := by
      unfold transitOne
      rw [hl]
      match l, hlen with
      | [], _ => rfl
      | x :: y :: t, _ => rfl
      | [x], h => exact absurd rfl h
    rw [transitLoop_succ_error fuel (transitKeys_cons_error hone)]

/-- Witness for C9: two objects extend key `a` as a prefix, so the
assertion fails and the run aborts. -/
theorem transit_listing_cardinality_aborts_witness :
    transitLoop (2 + 1) [⟨"ab", "GLACIER", []⟩, ⟨"ac", "GLACIER", []⟩] ["a"] .Standard 0
      = ⟨[Event.listCall "a"], 1, .aborted .assertFailure⟩ :=
  (transit_listing_cardinality_aborts [⟨"ab", "GLACIER", []⟩, ⟨"ac", "GLACIER", []⟩]
    "a" [] .Standard 0).2 [⟨"ab", "GLACIER"⟩, ⟨"ac", "GLACIER"⟩] (by decide) (by decide) 2
